import Mathlib

/-!
Verification development for the westwelt real-time multiplayer
synchronization engine.  The definitions below are a shallow embedding of
the server (session store, playerUpdate validation, hit resolution,
defeat/respawn), the client connection lifecycle manager, the fixed
timestep scheduler, the local movement state machine and the projectile
removal pass, translated directly from the TypeScript/JavaScript source.
Numbers that the source manipulates as IEEE doubles are modelled as an
explicit JavaScript-number type (rational, NaN, or a signed infinity) where
NaN/Infinity behaviour matters, and as plain rationals elsewhere.
-/

namespace Westwelt

/-- A JavaScript number: NaN, a signed infinity (`inf true` is positive
infinity, `inf false` negative infinity), or a finite value modelled as a
rational. -/
inductive JSNum where
  | nan : JSNum
  | inf : Bool → JSNum
  | fin : ℚ → JSNum
deriving DecidableEq

/-- JavaScript `isNaN` on a number (no string coercion is needed here:
the fields involved are numbers). -/
def jsIsNaN : JSNum → Bool
  | .nan => true
  | _ => false

/-- JavaScript truthiness of a number: `0`, `-0` and `NaN` are falsy,
everything else truthy. -/
def jsTruthy : JSNum → Bool
  | .nan => false
  | .inf _ => true
  | .fin q => decide (q ≠ 0)

/-- JavaScript `<` on numbers: any comparison with NaN is false;
infinities compare in the usual way. -/
def jsLt : JSNum → JSNum → Bool
  | .nan, _ => false
  | _, .nan => false
  | .inf a, .inf b => !a && b
  | .inf a, .fin _ => !a
  | .fin _, .inf b => b
  | .fin a, .fin b => decide (a < b)

/-- JavaScript `<=` on numbers: any comparison with NaN is false. -/
def jsLe : JSNum → JSNum → Bool
  | .nan, _ => false
  | _, .nan => false
  | .inf a, .inf b => !a || b
  | .inf a, .fin _ => !a
  | .fin _, .inf b => b
  | .fin a, .fin b => decide (a ≤ b)

/-- JavaScript subtraction on numbers. -/
def jsSub : JSNum → JSNum → JSNum
  | .nan, _ => .nan
  | _, .nan => .nan
  | .inf a, .inf b => if a = b then .nan else .inf a
  | .inf a, .fin _ => .inf a
  | .fin _, .inf b => .inf (!b)
  | .fin a, .fin b => .fin (a - b)

/-- JavaScript `Math.max` on two numbers: NaN if either argument is NaN. -/
def jsMax (a b : JSNum) : JSNum :=
  match a, b with
  | .nan, _ => .nan
  | _, .nan => .nan
  | x, y => if jsLt x y then y else x

/-- A 3-component vector of JavaScript numbers (a `position` payload). -/
structure Vec3 where
  x : JSNum
  y : JSNum
  z : JSNum
deriving DecidableEq

/-- A quaternion of JavaScript numbers (a `rotation` payload). -/
structure Quat where
  x : JSNum
  y : JSNum
  z : JSNum
  w : JSNum
deriving DecidableEq

/-- Server-authoritative per-session player record (`initialState` shape in
server.js). -/
structure PlayerState where
  id : Nat
  position : Vec3
  rotation : Quat
  animationState : JSNum
  health : JSNum
  maxHealth : JSNum
  lastUpdateTime : Nat
deriving DecidableEq

/-- A connected session: the transport's open flag (readyState === OPEN)
plus the authoritative player state. -/
structure Session where
  wsOpen : Bool
  state : PlayerState
deriving DecidableEq

/-- The server's `players` map, keyed by player id. -/
abbrev Store := List (Nat × Session)

/-- Look up a session by id (first match, as in `players.get`). -/
def lookupP (ps : Store) (pid : Nat) : Option Session :=
  match ps with
  | [] => none
  | e :: rest => if e.1 = pid then some e.2 else lookupP rest pid

/-- Replace the session stored under an id (no-op when absent, as mutation
through `players.get` would be). -/
def setP (ps : Store) (pid : Nat) (s : Session) : Store :=
  ps.map (fun e => if e.1 = pid then (e.1, s) else e)

/-- The default spawn state allocated on connection accept
(server.js lines 32-40). -/
def initialState (pid : Nat) (nowMs : Nat) : PlayerState :=
  { id := pid
    position := ⟨.fin 0, .fin 5, .fin 0⟩
    rotation := ⟨.fin 0, .fin 0, .fin 0, .fin 1⟩
    animationState := .fin 0
    health := .fin 100
    maxHealth := .fin 100
    lastUpdateTime := nowMs }

/-- An inbound `playerUpdate` payload's `state` object: each field may be
absent (`undefined`). -/
structure UpdateMsg where
  position : Option Vec3
  rotation : Option Quat
  animationState : Option JSNum
  health : Option JSNum
deriving DecidableEq

/-- Whether any component of a position payload is NaN. -/
def vec3HasNaN (v : Vec3) : Bool := jsIsNaN v.x || jsIsNaN v.y || jsIsNaN v.z

/-- Whether any component of a rotation payload is NaN. -/
def quatHasNaN (q : Quat) : Bool :=
  jsIsNaN q.x || jsIsNaN q.y || jsIsNaN q.z || jsIsNaN q.w

/-- `isValidState` from server.js lines 208-216, field by field.  Each JS
`if (state.f && bad(state.f)) return false` becomes a test that the field
is present (objects are truthy when present; `health` and `animationState`
additionally go through number truthiness). -/
def isValidState (st : UpdateMsg) : Bool :=
  if (match st.position with
      | some p => vec3HasNaN p
      | none => false) then false
  else if (match st.rotation with
      | some r => quatHasNaN r
      | none => false) then false
  else if (match st.health with
      | some h => jsTruthy h && (jsIsNaN h || jsLt h (.fin 0))
      | none => false) then false
  else if (match st.animationState with
      | some a => jsTruthy a && jsIsNaN a
      | none => false) then false
  else true

/-- The spread merge `{ ...player.state, ...data.state }`: fields present
in the update override the stored ones. -/
def applyUpdate (st : PlayerState) (m : UpdateMsg) : PlayerState :=
  { st with
    position := m.position.getD st.position
    rotation := m.rotation.getD st.rotation
    animationState := m.animationState.getD st.animationState
    health := m.health.getD st.health }

/-- The `case 'playerUpdate'` branch of the message handler
(server.js lines 81-104): validate, then merge into the stored state, else
leave the store untouched. -/
def handlePlayerUpdate (ps : Store) (pid : Nat) (m : UpdateMsg) : Store :=
  match lookupP ps pid with
  | none => ps
  | some sess =>
    if isValidState m then
      setP ps pid { sess with state := applyUpdate sess.state m }
    else ps

/-- A server-to-client protocol message relevant to hit resolution and the
health lifecycle. -/
inductive Msg where
  | playerDamaged (sourceId : Nat) (damage : JSNum) (hitZone : Nat) (newHealth : JSNum)
  | hitConfirmed (targetId : Nat) (newHealth : JSNum)
  | healthUpdate (playerId : Nat) (health : JSNum)
  | playerDefeated (defeatedId : Nat) (killerId : Nat)
  | respawn (newState : PlayerState)
  | playerRespawned (playerState : PlayerState)
deriving DecidableEq

/-- An observable server effect: a direct send, a broadcast (optionally
excluding one session), or a scheduled timer (the respawn `setTimeout`). -/
inductive Effect where
  | sendTo (pid : Nat) (m : Msg)
  | broadcastExcept (except : Option Nat) (m : Msg)
  | schedule (delayMs : Nat) (targetId : Nat)
deriving DecidableEq

/-- Whether an effect is a scheduled timer. -/
def isScheduleEffect : Effect → Bool
  | .schedule _ _ => true
  | _ => false

/-- The synchronous part of `handlePlayerDefeat` (server.js lines 228-232):
broadcast the defeat and schedule the single 3000 ms respawn timer. -/
def handlePlayerDefeat (defeatedId killerId : Nat) : List Effect :=
  [ .broadcastExcept none (.playerDefeated defeatedId killerId),
    .schedule 3000 defeatedId ]

/-- An inbound `playerHit` payload. -/
structure HitMsg where
  targetId : Nat
  damage : JSNum
  hitZone : Nat
deriving DecidableEq

/-- The `case 'playerHit'` branch (server.js lines 118-167): look up both
sessions, drop the claim if either is missing; otherwise floor-clamp the
target's health, notify target and shooter (when their sockets are open),
broadcast the health update, and on death run `handlePlayerDefeat`. -/
def handlePlayerHit (ps : Store) (shooterId : Nat) (m : HitMsg) :
    Store × List Effect :=
  match lookupP ps m.targetId, lookupP ps shooterId with
  | some target, some source =>
    let newHealth := jsMax (.fin 0) (jsSub target.state.health m.damage)
    let target' : Session := { target with state := { target.state with health := newHealth } }
    let ps' := setP ps m.targetId target'
    let e1 := if target.wsOpen then
        [Effect.sendTo m.targetId (.playerDamaged shooterId m.damage m.hitZone newHealth)]
      else []
    let e2 := if source.wsOpen then
        [Effect.sendTo shooterId (.hitConfirmed m.targetId newHealth)]
      else []
    let e3 := [Effect.broadcastExcept none (.healthUpdate m.targetId newHealth)]
    let e4 := if jsLe newHealth (.fin 0) then handlePlayerDefeat m.targetId shooterId else []
    (ps', e1 ++ e2 ++ e3 ++ e4)
  | _, _ => (ps, [])

/-- The randomized spawn position used by the respawn callback:
`(Math.random() - 0.5) * 20` on x and z with the two draws passed in, and
a fixed height of 5. -/
def spawnPosition (r1 r2 : ℚ) : Vec3 :=
  ⟨.fin ((r1 - 1/2) * 20), .fin 5, .fin ((r2 - 1/2) * 20)⟩

/-- The respawn timer callback (server.js lines 233-271): re-check that the
session still exists and its socket is open; if so assign the new spawn
position, reset health to maxHealth and animation to idle, send `respawn`
to the player and broadcast `playerRespawned` to everyone else; otherwise
do nothing. -/
def respawnCallback (ps : Store) (defeatedId : Nat) (r1 r2 : ℚ) :
    Store × List Effect :=
  match lookupP ps defeatedId with
  | some sess =>
    if sess.wsOpen then
      let st' : PlayerState := { sess.state with
        position := spawnPosition r1 r2
        health := sess.state.maxHealth
        animationState := .fin 0 }
      (setP ps defeatedId { sess with state := st' },
       [ .sendTo defeatedId (.respawn st'),
         .broadcastExcept (some defeatedId) (.playerRespawned st') ])
    else (ps, [])
  | none => (ps, [])

/-- Client connection lifecycle state (NetworkClient fields in client.ts):
the pending reconnect timer is modelled as the delay of the currently
scheduled attempt, `none` when no live timer is pending. -/
structure ClientState where
  connected : Bool
  connecting : Bool
  reconnectAttempts : Nat
  reconnectTimer : Option Nat
  localPlayerId : Option Nat
  lastPingTime : Nat
deriving DecidableEq

/-- `maxReconnectAttempts` in client.ts. -/
def maxReconnectAttempts : Nat := 5

/-- `NetworkClient.scheduleReconnect` (client.ts lines 106-122): bail out
once the attempt counter has reached the maximum, otherwise increment it,
clear any pending timer and schedule the next attempt after
`min(1000 * 2^(attempts-1), 30000)` ms. -/
def scheduleReconnect (c : ClientState) : ClientState :=
  if c.reconnectAttempts ≥ maxReconnectAttempts then c
  else
    let attempts := c.reconnectAttempts + 1
    let delay := min (1000 * 2 ^ (attempts - 1)) 30000
    { c with reconnectAttempts := attempts, reconnectTimer := some delay }

/-- The `socket.onopen` handler (client.ts lines 66-73): mark connected,
reset the attempt counter, cancel any pending reconnect timer and stamp the
ping clock. -/
def onOpen (c : ClientState) (nowMs : Nat) : ClientState :=
  { c with
    connected := true
    connecting := false
    reconnectAttempts := 0
    reconnectTimer := none
    lastPingTime := nowMs }

/-- `world.time` as used by the fixed timestep scheduler
(timeUtils.ts / world.ts). -/
structure TimeState where
  accumulator : ℚ
  shouldRunPhysics : Bool
  physicsSteps : ℤ
  fixedDt : ℚ
  alpha : ℚ
deriving DecidableEq

/-- TimeStepConfig.FIXED_DT. -/
def FIXED_DT : ℚ := 1/60

/-- TimeStepConfig.MAX_STEPS. -/
def MAX_STEPS : ℤ := 5

/-- TimeStepConfig.MAX_FRAME_TIME. -/
def MAX_FRAME_TIME : ℚ := 1/4

/-- `updateFixedTimestep` (timeUtils.ts lines 10-33): cap the delta,
accumulate, derive and clamp the step count, and on any positive raw step
count subtract the consumed time and expose the leftover as alpha. -/
def updateFixedTimestep (t : TimeState) (deltaTime : ℚ) : TimeState :=
  let dt := min deltaTime MAX_FRAME_TIME
  let acc := t.accumulator + dt
  let steps : ℤ := ⌊acc / FIXED_DT⌋
  let clampedSteps : ℤ := min steps MAX_STEPS
  let base : TimeState := { t with
    accumulator := acc
    shouldRunPhysics := decide (0 < clampedSteps)
    physicsSteps := clampedSteps
    fixedDt := FIXED_DT }
  if 0 < steps then
    let acc' := acc - clampedSteps * FIXED_DT
    { base with accumulator := acc', alpha := acc' / FIXED_DT }
  else
    { base with alpha := 0 }

/-- PlayerConfig.JUMP_VEL. -/
def JUMP_VEL : ℚ := 14

/-- PlayerConfig.GRAVITY. -/
def GRAVITY : ℚ := 20

/-- PlayerConfig.TERMINAL_FALL. -/
def TERMINAL_FALL : ℚ := -20

/-- PlayerConfig.JUMP_CD_MS. -/
def JUMP_CD_MS : ℚ := 300

/-- PlayerConfig.COYOTE_MS. -/
def COYOTE_MS : ℚ := 150

/-- PlayerConfig.JUMP_BUFFER_MS. -/
def JUMP_BUFFER_MS : ℚ := 200

/-- PlayerConfig.FALL_ANIMATION_VELOCITY_THRESHOLD. -/
def FALL_ANIM_VEL_THRESHOLD : ℚ := -5

/-- Per-entity FPController fields touched by the movement system
(movementSystem.ts); `jumpRequested` is the 0/1 single-slot buffer flag,
`moveState` uses 0 = Grounded, 1 = Jumping, 2 = Falling. -/
structure FPState where
  vertVel : ℚ
  lastGrounded : ℚ
  lastJump : ℚ
  jumpRequested : Bool
  lastJumpRequest : ℚ
  moveState : Nat
  fallStartTime : ℚ
deriving DecidableEq

/-- Per-frame inputs to one movement step: the floor-contact query result,
this frame's jump key, last frame's jump key (the `prevJump` capture), the
`performance.now()` clock and the integration delta. -/
structure MoveInput where
  grounded : Bool
  jump : Bool
  prevJump : Bool
  now : ℚ
  dt : ℚ

/-- Movement-state and ground-contact bookkeeping
(movementSystem.ts lines 47-70). -/
def groundedStatePhase (s : FPState) (i : MoveInput) : FPState :=
  let s1 := if i.grounded then { s with lastGrounded := i.now, fallStartTime := 0 } else s
  if i.grounded then { s1 with moveState := 0 }
  else if 0 < s1.vertVel then { s1 with moveState := 1, fallStartTime := 0 }
  else
    let s2 :=
      if s1.vertVel ≤ FALL_ANIM_VEL_THRESHOLD then
        (if s1.fallStartTime = 0 then { s1 with fallStartTime := i.now } else s1)
      else { s1 with fallStartTime := 0 }
    { s2 with moveState := 2 }

/-- Jump-request buffering (movementSystem.ts lines 72-80): a fresh
edge-detected press fills the empty single-slot buffer and stamps its
time; releasing the key clears the slot. -/
def bufferPhase (s : FPState) (i : MoveInput) : FPState :=
  let jumpPressed := i.jump && !i.prevJump
  if jumpPressed && !s.jumpRequested then
    { s with jumpRequested := true, lastJumpRequest := i.now }
  else if !i.jump then { s with jumpRequested := false }
  else s

/-- The `canJump` gate (movementSystem.ts lines 83-84): on the ground or
within the coyote window, and past the jump cooldown. -/
def canJump (s : FPState) (i : MoveInput) : Bool :=
  (i.grounded || decide (i.now - s.lastGrounded < COYOTE_MS)) &&
  decide (JUMP_CD_MS < i.now - s.lastJump)

/-- Jump execution (movementSystem.ts lines 87-91): fire when `canJump`
holds and the key was freshly pressed or the buffered request is still
within the buffer window; firing sets the jump velocity, stamps
`lastJump` and clears the buffer slot. -/
def jumpPhase (s : FPState) (i : MoveInput) : FPState :=
  let jumpPressed := i.jump && !i.prevJump
  if canJump s i && (jumpPressed || decide (i.now - s.lastJumpRequest < JUMP_BUFFER_MS)) then
    { s with vertVel := JUMP_VEL, lastJump := i.now, jumpRequested := false }
  else s

/-- Vertical-velocity integration (movementSystem.ts lines 96-105):
airborne steps integrate gravity with a terminal clamp; grounded steps
scale the velocity by 0.8 and snap it to 0 below a 0.1 magnitude. -/
def gravityPhase (s : FPState) (i : MoveInput) : FPState :=
  if s.moveState ≠ 0 then
    { s with vertVel := max (s.vertVel - GRAVITY * i.dt) TERMINAL_FALL }
  else
    let v := s.vertVel * (4/5)
    { s with vertVel := if |v| < 1/10 then 0 else v }

/-- One full vertical-state portion of a movement step
(movementSystem.ts lines 46-105), in source order. -/
def moveStep (s : FPState) (i : MoveInput) : FPState :=
  gravityPhase (jumpPhase (bufferPhase (groundedStatePhase s i) i) i) i

/-- Per-projectile data read by the removal pass (projectile.ts): the
Lifespan fields and the collision system's `markedForDeletion` flag on the
entity's mesh. -/
structure ProjInfo where
  born : ℚ
  ttl : ℚ
  marked : Bool
deriving DecidableEq

/-- The TTL test `now - Lifespan.born[eid] > Lifespan.ttl[eid]`. -/
def ttlExpired (nowT : ℚ) (p : ProjInfo) : Bool := decide (p.ttl < nowT - p.born)

/-- One iteration of the removal-collection loop
(projectile.ts lines 38-52): an expired projectile is enqueued and the
flag check is skipped (`continue`); otherwise a flagged projectile is
enqueued unless already present. -/
def removalFold (nowT : ℚ) (acc : List Nat) (e : Nat × ProjInfo) : List Nat :=
  if ttlExpired nowT e.2 then acc ++ [e.1]
  else if e.2.marked && !(acc.contains e.1) then acc ++ [e.1]
  else acc

/-- The full removal-collection pass over the projectile query's
entities. -/
def collectRemovals (nowT : ℚ) (es : List (Nat × ProjInfo)) : List Nat :=
  es.foldl (removalFold nowT) []

/-! ## Connection lifecycle claims -/

/-- C3: the delay scheduled before reconnect attempt n (1-indexed) equals
min(1000 × 2^(n−1), 30000) ms, and once the attempt counter has reached the
configured maximum of 5, scheduleReconnect schedules no further attempt. -/
theorem reconnect_backoff (c : ClientState) (n : Nat) :
    (c.reconnectAttempts = n - 1 → 1 ≤ n → n ≤ 5 →
      scheduleReconnect c =
        { c with reconnectAttempts := n,
                 reconnectTimer := some (min (1000 * 2 ^ (n - 1)) 30000) }) ∧
    (maxReconnectAttempts ≤ c.reconnectAttempts → scheduleReconnect c = c) := by
  constructor
  · intro h1 h2 h3
    have hlt : ¬ (c.reconnectAttempts ≥ maxReconnectAttempts) := by
      rw [h1]
      unfold maxReconnectAttempts
      omega
    unfold scheduleReconnect
    rw [if_neg hlt]
    have hsucc : c.reconnectAttempts + 1 = n := by omega
    simp only [hsucc]
  · intro h
    unfold scheduleReconnect
    rw [if_pos h]

/-- Witness for C3: with the counter at 4, the 5th attempt is scheduled
with delay min(1000·2⁴, 30000) = 16000 ms; with the counter at 5 the state
is unchanged. -/
theorem reconnect_backoff_witness :
    scheduleReconnect ⟨false, false, 4, none, none, 0⟩ =
      { (⟨false, false, 4, none, none, 0⟩ : ClientState) with
        reconnectAttempts := 5,
        reconnectTimer := some (min (1000 * 2 ^ (5 - 1)) 30000) } ∧
    scheduleReconnect ⟨false, false, 5, none, none, 0⟩ =
      ⟨false, false, 5, none, none, 0⟩ :=
  ⟨(reconnect_backoff ⟨false, false, 4, none, none, 0⟩ 5).1 rfl (by decide) (by decide),
   (reconnect_backoff ⟨false, false, 5, none, none, 0⟩ 5).2 (by decide)⟩

/-- C10: whenever the open handler runs, the reconnect attempt counter is
reset to 0 and any pending reconnect timer is cleared, so a subsequent
failure streak restarts its backoff schedule from the base delay of
1000 ms. -/
theorem open_resets_backoff (c : ClientState) (nowMs : Nat) :
    (onOpen c nowMs).reconnectAttempts = 0 ∧
    (onOpen c nowMs).reconnectTimer = none ∧
    scheduleReconnect (onOpen c nowMs) =
      { onOpen c nowMs with reconnectAttempts := 1, reconnectTimer := some 1000 } := by
  refine ⟨rfl, rfl, ?_⟩
  unfold scheduleReconnect onOpen maxReconnectAttempts
  norm_num

/-! ## Fixed timestep scheduler claims -/

/-- Characterization of `updateFixedTimestep` when at least one raw step
is due. -/
lemma updateFixedTimestep_pos (t : TimeState) (d : ℚ)
    (hpos : 0 < ⌊(t.accumulator + min d MAX_FRAME_TIME) / FIXED_DT⌋) :
    updateFixedTimestep t d =
      { accumulator := t.accumulator + min d MAX_FRAME_TIME -
          (min ⌊(t.accumulator + min d MAX_FRAME_TIME) / FIXED_DT⌋ MAX_STEPS) * FIXED_DT
        shouldRunPhysics :=
          decide (0 < min ⌊(t.accumulator + min d MAX_FRAME_TIME) / FIXED_DT⌋ MAX_STEPS)
        physicsSteps := min ⌊(t.accumulator + min d MAX_FRAME_TIME) / FIXED_DT⌋ MAX_STEPS
        fixedDt := FIXED_DT
        alpha := (t.accumulator + min d MAX_FRAME_TIME -
          (min ⌊(t.accumulator + min d MAX_FRAME_TIME) / FIXED_DT⌋ MAX_STEPS) * FIXED_DT) /
            FIXED_DT } := by
  simp only [updateFixedTimestep]
  rw [if_pos hpos]

/-- Characterization of `updateFixedTimestep` when no raw step is due. -/
lemma updateFixedTimestep_nonpos (t : TimeState) (d : ℚ)
    (hpos : ¬ 0 < ⌊(t.accumulator + min d MAX_FRAME_TIME) / FIXED_DT⌋) :
    updateFixedTimestep t d =
      { accumulator := t.accumulator + min d MAX_FRAME_TIME
        shouldRunPhysics :=
          decide (0 < min ⌊(t.accumulator + min d MAX_FRAME_TIME) / FIXED_DT⌋ MAX_STEPS)
        physicsSteps := min ⌊(t.accumulator + min d MAX_FRAME_TIME) / FIXED_DT⌋ MAX_STEPS
        fixedDt := FIXED_DT
        alpha := 0 } := by
  simp only [updateFixedTimestep]
  rw [if_neg hpos]

/-- C6 counterexample: starting from a zero accumulator, a single call
with delta 1/4 s (= MAX_FRAME_TIME) yields a raw step count of 15, the
clamp to MAX_STEPS = 5 engages, yet the excess beyond 5 × FIXED_DT stays
in the accumulator (remainder 1/6 ≥ FIXED_DT rather than being dropped)
and the exposed blend fraction is 10, not in [0, 1). -/
theorem fixed_timestep_clamp_cex :
    (updateFixedTimestep ⟨0, false, 0, 0, 0⟩ (1/4)).physicsSteps = 5 ∧
    (updateFixedTimestep ⟨0, false, 0, 0, 0⟩ (1/4)).accumulator = 1/6 ∧
    ¬ (updateFixedTimestep ⟨0, false, 0, 0, 0⟩ (1/4)).accumulator < FIXED_DT ∧
    (updateFixedTimestep ⟨0, false, 0, 0, 0⟩ (1/4)).alpha = 10 ∧
    ¬ (updateFixedTimestep ⟨0, false, 0, 0, 0⟩ (1/4)).alpha < 1 := by
  have key := updateFixedTimestep_pos ⟨0, false, 0, 0, 0⟩ (1/4)
      (by norm_num [FIXED_DT, MAX_FRAME_TIME])
  rw [key]
  norm_num [FIXED_DT, MAX_FRAME_TIME, MAX_STEPS]

/-- C6 (amended): the delta added to the accumulator is
min(d, MAX_FRAME_TIME); the step count is floor(accumulator / FIXED_DT)
clamped to MAX_STEPS; the consumed time clampedSteps × FIXED_DT is
subtracted from the accumulator, so when the clamp engages, the excess
simulated time is retained (not dropped); and the blend fraction alpha
lies in [0, 1) whenever the raw step count does not exceed MAX_STEPS
(alpha is 0 when no step is due). -/
theorem fixed_timestep_behavior (t : TimeState) (d : ℚ) :
    ((updateFixedTimestep t d).physicsSteps =
      min ⌊(t.accumulator + min d MAX_FRAME_TIME) / FIXED_DT⌋ MAX_STEPS) ∧
    (0 < ⌊(t.accumulator + min d MAX_FRAME_TIME) / FIXED_DT⌋ →
      (updateFixedTimestep t d).accumulator =
        t.accumulator + min d MAX_FRAME_TIME -
          (min ⌊(t.accumulator + min d MAX_FRAME_TIME) / FIXED_DT⌋ MAX_STEPS) * FIXED_DT) ∧
    (0 < ⌊(t.accumulator + min d MAX_FRAME_TIME) / FIXED_DT⌋ →
      ⌊(t.accumulator + min d MAX_FRAME_TIME) / FIXED_DT⌋ ≤ MAX_STEPS →
      0 ≤ (updateFixedTimestep t d).alpha ∧ (updateFixedTimestep t d).alpha < 1) ∧
    (⌊(t.accumulator + min d MAX_FRAME_TIME) / FIXED_DT⌋ ≤ 0 →
      (updateFixedTimestep t d).alpha = 0 ∧
      (updateFixedTimestep t d).accumulator = t.accumulator + min d MAX_FRAME_TIME) := by
  have hF : (0:ℚ) < FIXED_DT := by norm_num [FIXED_DT]
  by_cases hpos : 0 < ⌊(t.accumulator + min d MAX_FRAME_TIME) / FIXED_DT⌋
  · rw [updateFixedTimestep_pos t d hpos]
    refine ⟨rfl, fun _ => rfl, fun _ hle => ?_, fun hle => absurd hpos (by omega)⟩
    have hmin : min ⌊(t.accumulator + min d MAX_FRAME_TIME) / FIXED_DT⌋ MAX_STEPS
        = ⌊(t.accumulator + min d MAX_FRAME_TIME) / FIXED_DT⌋ := min_eq_left hle
    simp only [hmin]
    set acc : ℚ := t.accumulator + min d MAX_FRAME_TIME with hacc
    set n : ℤ := ⌊acc / FIXED_DT⌋ with hn
    have h1 : (n : ℚ) * FIXED_DT ≤ acc := by
      have hfl := Int.floor_le (acc / FIXED_DT)
      rw [← hn] at hfl
      have hmul := mul_le_mul_of_nonneg_right hfl (le_of_lt hF)
      rwa [div_mul_cancel₀ _ (ne_of_gt hF)] at hmul
    have h2 : acc < ((n : ℚ) + 1) * FIXED_DT := by
      have hfl := Int.lt_floor_add_one (acc / FIXED_DT)
      rw [← hn] at hfl
      have hmul := mul_lt_mul_of_pos_right hfl hF
      rwa [div_mul_cancel₀ _ (ne_of_gt hF)] at hmul
    constructor
    · apply div_nonneg _ (le_of_lt hF)
      linarith
    · rw [div_lt_one hF]
      linarith
  · rw [updateFixedTimestep_nonpos t d hpos]
    exact ⟨rfl, fun h => absurd h hpos, fun h _ => absurd h hpos, fun _ => ⟨rfl, rfl⟩⟩

/-- Witness for C6 (amended): a quiescent accumulator of 1/120 with a
delta of 1/60 yields one step, remainder 1/120 and alpha 1/2 ∈ [0, 1). -/
theorem fixed_timestep_behavior_witness :
    0 ≤ (updateFixedTimestep ⟨1/120, false, 0, 0, 0⟩ (1/60)).alpha ∧
    (updateFixedTimestep ⟨1/120, false, 0, 0, 0⟩ (1/60)).alpha < 1 :=
  (fixed_timestep_behavior ⟨1/120, false, 0, 0, 0⟩ (1/60)).2.2.1
    (by norm_num [FIXED_DT, MAX_FRAME_TIME])
    (by norm_num [FIXED_DT, MAX_FRAME_TIME, MAX_STEPS])

/-! ## Movement state machine claims -/

/-- The state/contact phase leaves the vertical velocity, jump timing and
buffer fields unchanged and refreshes lastGrounded exactly on contact. -/
lemma groundedStatePhase_fields (s : FPState) (i : MoveInput) :
    (groundedStatePhase s i).vertVel = s.vertVel ∧
    (groundedStatePhase s i).lastJump = s.lastJump ∧
    (groundedStatePhase s i).jumpRequested = s.jumpRequested ∧
    (groundedStatePhase s i).lastJumpRequest = s.lastJumpRequest ∧
    (groundedStatePhase s i).lastGrounded =
      (if i.grounded then i.now else s.lastGrounded) := by
  unfold groundedStatePhase
  by_cases hg : i.grounded <;> simp [hg] <;> split_ifs <;> simp

/-- The state/contact phase sets moveState to Grounded exactly when the
floor-contact query reports contact. -/
lemma groundedStatePhase_moveState (s : FPState) (i : MoveInput) :
    ((groundedStatePhase s i).moveState = 0 ↔ i.grounded = true) := by
  unfold groundedStatePhase
  by_cases hg : i.grounded <;> simp [hg] <;> split_ifs <;> simp

/-- The buffering phase leaves all fields except the buffer slot and its
timestamp unchanged, and re-stamps the timestamp exactly on a fresh press
into an empty slot. -/
lemma bufferPhase_fields (s : FPState) (i : MoveInput) :
    (bufferPhase s i).vertVel = s.vertVel ∧
    (bufferPhase s i).lastJump = s.lastJump ∧
    (bufferPhase s i).lastGrounded = s.lastGrounded ∧
    (bufferPhase s i).moveState = s.moveState ∧
    (bufferPhase s i).lastJumpRequest =
      (if ((i.jump && !i.prevJump) && !s.jumpRequested) = true then i.now
       else s.lastJumpRequest) := by
  unfold bufferPhase
  by_cases hj : i.jump = true <;> by_cases hp : i.prevJump = true <;>
    by_cases hr : s.jumpRequested = true <;>
      simp_all

/-- The jump phase does not change moveState. -/
lemma jumpPhase_moveState (s : FPState) (i : MoveInput) :
    (jumpPhase s i).moveState = s.moveState := by
  simp only [jumpPhase]
  split_ifs <;> rfl

/-- C7: in a movement step, a jump executes if and only if
canJump = (grounded OR now − lastGrounded < coyoteWindow) AND
(now − lastJump > jumpCooldown) holds together with either a fresh jump
press this frame or a buffered request still within jumpBufferWindow of
its press time; firing sets vertical velocity to the configured jump
speed, stamps lastJump with now, and clears the buffered request — all
stated against the pre-step controller state. -/
theorem jump_execution (s : FPState) (i : MoveInput) :
    (((i.grounded = true ∨ i.now - s.lastGrounded < COYOTE_MS) ∧
        JUMP_CD_MS < i.now - s.lastJump) ∧
       ((i.jump && !i.prevJump) = true ∨ i.now - s.lastJumpRequest < JUMP_BUFFER_MS) →
      jumpPhase (bufferPhase (groundedStatePhase s i) i) i =
        { bufferPhase (groundedStatePhase s i) i with
          vertVel := JUMP_VEL, lastJump := i.now, jumpRequested := false }) ∧
    (¬ ((((i.grounded = true ∨ i.now - s.lastGrounded < COYOTE_MS) ∧
        JUMP_CD_MS < i.now - s.lastJump) ∧
       ((i.jump && !i.prevJump) = true ∨ i.now - s.lastJumpRequest < JUMP_BUFFER_MS))) →
      jumpPhase (bufferPhase (groundedStatePhase s i) i) i =
        bufferPhase (groundedStatePhase s i) i) := by
  have hgf := groundedStatePhase_fields s i
  have hbf := bufferPhase_fields (groundedStatePhase s i) i
  have hlg : (bufferPhase (groundedStatePhase s i) i).lastGrounded =
      (if i.grounded then i.now else s.lastGrounded) := by
    rw [hbf.2.2.1, hgf.2.2.2.2]
  have hlj : (bufferPhase (groundedStatePhase s i) i).lastJump = s.lastJump := by
    rw [hbf.2.1, hgf.2.1]
  have hljr : (bufferPhase (groundedStatePhase s i) i).lastJumpRequest =
      (if ((i.jump && !i.prevJump) && !s.jumpRequested) = true then i.now
       else s.lastJumpRequest) := by
    rw [hbf.2.2.2.2, hgf.2.2.1, hgf.2.2.2.1]
  have hguard : (canJump (bufferPhase (groundedStatePhase s i) i) i &&
      ((i.jump && !i.prevJump) ||
        decide (i.now - (bufferPhase (groundedStatePhase s i) i).lastJumpRequest <
          JUMP_BUFFER_MS))) = true ↔
      (((i.grounded = true ∨ i.now - s.lastGrounded < COYOTE_MS) ∧
        JUMP_CD_MS < i.now - s.lastJump) ∧
       ((i.jump && !i.prevJump) = true ∨ i.now - s.lastJumpRequest < JUMP_BUFFER_MS)) := by
    unfold canJump
    rw [hlg, hlj, hljr]
    by_cases hg : i.grounded <;>
      by_cases hp : (i.jump && !i.prevJump) = true <;>
        by_cases hr : s.jumpRequested = true <;>
          simp [hg, hp, hr, sub_self, COYOTE_MS, JUMP_BUFFER_MS]
  constructor
  · intro hF
    have hb := hguard.mpr hF
    unfold jumpPhase
    rw [if_pos hb]
  · intro hF
    have hb : ¬ ((canJump (bufferPhase (groundedStatePhase s i) i) i &&
        ((i.jump && !i.prevJump) ||
          decide (i.now - (bufferPhase (groundedStatePhase s i) i).lastJumpRequest <
            JUMP_BUFFER_MS))) = true) := fun h => hF (hguard.mp h)
    unfold jumpPhase
    rw [if_neg hb]

/-- Witness for C7: on the ground, past the cooldown, with a fresh press,
the jump fires with the stated effects. -/
theorem jump_execution_witness :
    ((((⟨true, true, false, 1000, 1/60⟩ : MoveInput).grounded = true ∨
        (1000:ℚ) - (⟨0, 0, 0, false, -100000, 0, 0⟩ : FPState).lastGrounded < COYOTE_MS) ∧
       JUMP_CD_MS < (1000:ℚ) - (⟨0, 0, 0, false, -100000, 0, 0⟩ : FPState).lastJump) ∧
      ((true && !false) = true ∨
        (1000:ℚ) - (⟨0, 0, 0, false, -100000, 0, 0⟩ : FPState).lastJumpRequest <
          JUMP_BUFFER_MS)) ∧
    jumpPhase
        (bufferPhase
          (groundedStatePhase ⟨0, 0, 0, false, -100000, 0, 0⟩ ⟨true, true, false, 1000, 1/60⟩)
          ⟨true, true, false, 1000, 1/60⟩)
        ⟨true, true, false, 1000, 1/60⟩ =
      { bufferPhase
          (groundedStatePhase ⟨0, 0, 0, false, -100000, 0, 0⟩ ⟨true, true, false, 1000, 1/60⟩)
          ⟨true, true, false, 1000, 1/60⟩ with
        vertVel := JUMP_VEL, lastJump := 1000, jumpRequested := false } := by
  have hF : (((⟨true, true, false, 1000, 1/60⟩ : MoveInput).grounded = true ∨
        (1000:ℚ) - (⟨0, 0, 0, false, -100000, 0, 0⟩ : FPState).lastGrounded < COYOTE_MS) ∧
       JUMP_CD_MS < (1000:ℚ) - (⟨0, 0, 0, false, -100000, 0, 0⟩ : FPState).lastJump) ∧
      ((true && !false) = true ∨
        (1000:ℚ) - (⟨0, 0, 0, false, -100000, 0, 0⟩ : FPState).lastJumpRequest <
          JUMP_BUFFER_MS) := by
    refine ⟨⟨Or.inl rfl, ?_⟩, Or.inl rfl⟩
    norm_num [JUMP_CD_MS]
  exact ⟨hF, (jump_execution ⟨0, 0, 0, false, -100000, 0, 0⟩ ⟨true, true, false, 1000, 1/60⟩).1 hF⟩

/-- C8 counterexample: a grounded step with vertical velocity −1 raises it
to −4/5 (the grounded branch damps the velocity multiplicatively toward
zero); the velocity strictly increases, so no constant downward bias is
applied in grounded steps. -/
theorem grounded_step_no_downward_bias :
    (moveStep ⟨-1, 0, -10000, false, -10000, 0, 0⟩ ⟨true, false, false, 0, 1/60⟩).vertVel
      = -4/5 ∧
    ¬ (moveStep ⟨-1, 0, -10000, false, -10000, 0, 0⟩ ⟨true, false, false, 0, 1/60⟩).vertVel <
        (⟨-1, 0, -10000, false, -10000, 0, 0⟩ : FPState).vertVel := by
  have habs : |(4/5 : ℚ)| = 4/5 := abs_of_pos (by norm_num)
  norm_num [moveStep, groundedStatePhase, bufferPhase, jumpPhase, gravityPhase, canJump,
    COYOTE_MS, JUMP_CD_MS, JUMP_BUFFER_MS, habs]

/-- C8 (amended): in every airborne step, the post-step vertical velocity
is max(v − GRAVITY·dt, TERMINAL_FALL) where v is the velocity entering the
gravity phase; in every grounded step, the velocity is instead scaled by
0.8 and snapped to 0 when the scaled magnitude falls below 0.1 — a
multiplicative damping toward zero, not a constant downward bias. -/
theorem vertical_velocity_integration (s : FPState) (i : MoveInput) :
    (i.grounded = false →
      (moveStep s i).vertVel =
        max ((jumpPhase (bufferPhase (groundedStatePhase s i) i) i).vertVel - GRAVITY * i.dt)
          TERMINAL_FALL) ∧
    (i.grounded = true →
      (moveStep s i).vertVel =
        (if |(jumpPhase (bufferPhase (groundedStatePhase s i) i) i).vertVel * (4/5)| < 1/10
         then 0
         else (jumpPhase (bufferPhase (groundedStatePhase s i) i) i).vertVel * (4/5))) := by
  have hms : (jumpPhase (bufferPhase (groundedStatePhase s i) i) i).moveState = 0 ↔
      i.grounded = true := by
    rw [jumpPhase_moveState,
      (bufferPhase_fields (groundedStatePhase s i) i).2.2.2.1,
      groundedStatePhase_moveState]
  constructor
  · intro hg
    have hne : (jumpPhase (bufferPhase (groundedStatePhase s i) i) i).moveState ≠ 0 := by
      intro h0
      rw [hms.mp h0] at hg
      exact Bool.true_eq_false.mp hg
    unfold moveStep gravityPhase
    rw [if_pos hne]
  · intro hg
    have heq : ¬ ((jumpPhase (bufferPhase (groundedStatePhase s i) i) i).moveState ≠ 0) :=
      fun h => h (hms.mpr hg)
    unfold moveStep gravityPhase
    rw [if_neg heq]

/-- Witness for C8 (amended): a concrete airborne step integrates gravity
with the terminal clamp, and a concrete grounded step damps the
velocity. -/
theorem vertical_velocity_integration_witness :
    (moveStep ⟨0, -10000, -10000, false, -10000, 2, 0⟩ ⟨false, false, false, 0, 1/60⟩).vertVel =
      max ((jumpPhase (bufferPhase
            (groundedStatePhase ⟨0, -10000, -10000, false, -10000, 2, 0⟩
              ⟨false, false, false, 0, 1/60⟩) ⟨false, false, false, 0, 1/60⟩)
          ⟨false, false, false, 0, 1/60⟩).vertVel - GRAVITY * (1/60))
        TERMINAL_FALL :=
  (vertical_velocity_integration ⟨0, -10000, -10000, false, -10000, 2, 0⟩
    ⟨false, false, false, 0, 1/60⟩).1 rfl

/-! ## Server session store claims -/

/-- Updating an id that is present makes a subsequent lookup of that id
return the new session. -/
lemma lookupP_setP (ps : Store) (pid : Nat) (s s₀ : Session)
    (h : lookupP ps pid = some s₀) :
    lookupP (setP ps pid s) pid = some s := by
  induction ps with
  | nil => simp [lookupP] at h
  | cons e rest ih =>
    by_cases he : e.1 = pid
    · simp [lookupP, setP, he]
    · simp only [lookupP, setP, List.map_cons, if_neg he] at h ⊢
      exact ih h

/-- A number that compares below 0 in JavaScript is truthy. -/
lemma jsLt_fin0_truthy (h : JSNum) (hlt : jsLt h (.fin 0) = true) :
    jsTruthy h = true := by
  cases h with
  | nan => simp [jsLt] at hlt
  | inf b => simp [jsTruthy]
  | fin q =>
    simp only [jsLt, decide_eq_true_eq] at hlt
    simp only [jsTruthy, decide_eq_true_eq]
    exact ne_of_lt hlt

/-- C1 (amended): for every inbound playerUpdate whose state carries a NaN
position component, a NaN rotation component, or a health value that
compares below 0 (a finite negative or −Infinity), isValidState returns
false and the handler leaves the session store unchanged.  (±Infinity
position/rotation components and NaN health are accepted by the isNaN-only
validation and are not covered.) -/
theorem invalid_update_rejected (ps : Store) (pid : Nat) (m : UpdateMsg)
    (h : (∃ p, m.position = some p ∧ vec3HasNaN p = true) ∨
         (∃ r, m.rotation = some r ∧ quatHasNaN r = true) ∨
         (∃ hv, m.health = some hv ∧ jsLt hv (.fin 0) = true)) :
    isValidState m = false ∧ handlePlayerUpdate ps pid m = ps := by
  have hvalid : isValidState m = false := by
    unfold isValidState
    split_ifs with g1 g2 g3 g4 <;> try rfl
    exfalso
    rcases h with ⟨p, hp, hnan⟩ | ⟨r, hr, hnan⟩ | ⟨x, hx, hlt⟩
    · rw [hp] at g1
      simp [hnan] at g1
    · rw [hr] at g2
      simp [hnan] at g2
    · rw [hx] at g3
      simp [jsLt_fin0_truthy x hlt, hlt] at g3
  refine ⟨hvalid, ?_⟩
  unfold handlePlayerUpdate
  cases hlk : lookupP ps pid with
  | none => rfl
  | some sess => simp [hvalid]

/-- Witness for C1 (amended): a NaN x-position is rejected and a concrete
one-session store is left untouched. -/
theorem invalid_update_rejected_witness :
    isValidState ⟨some ⟨.nan, .fin 0, .fin 0⟩, none, none, none⟩ = false ∧
    handlePlayerUpdate [(1, ⟨true, initialState 1 0⟩)] 1
        ⟨some ⟨.nan, .fin 0, .fin 0⟩, none, none, none⟩ =
      [(1, ⟨true, initialState 1 0⟩)] :=
  invalid_update_rejected [(1, ⟨true, initialState 1 0⟩)] 1
    ⟨some ⟨.nan, .fin 0, .fin 0⟩, none, none, none⟩
    (Or.inl ⟨⟨.nan, .fin 0, .fin 0⟩, rfl, rfl⟩)

/-- C1 counterexample: a position with a +Infinity component is a
non-finite position, yet isValidState accepts it (the source checks only
isNaN, and isNaN(Infinity) is false) and the handler stores the infinite
position over the previous valid one. -/
theorem infinite_position_accepted :
    isValidState ⟨some ⟨.inf true, .fin 0, .fin 0⟩, none, none, none⟩ = true ∧
    lookupP (handlePlayerUpdate [(1, ⟨true, initialState 1 0⟩)] 1
        ⟨some ⟨.inf true, .fin 0, .fin 0⟩, none, none, none⟩) 1 =
      some ⟨true, { initialState 1 0 with position := ⟨.inf true, .fin 0, .fin 0⟩ }⟩ :=
  ⟨rfl, rfl⟩

/-- Floor-clamped damage on finite values: Math.max(0, h − d) is the
rational max. -/
lemma jsMax_fin0_sub (a b : ℚ) :
    jsMax (.fin 0) (jsSub (.fin a) (.fin b)) = .fin (max 0 (a - b)) := by
  show jsMax (.fin 0) (.fin (a - b)) = .fin (max 0 (a - b))
  simp only [jsMax, jsLt]
  by_cases h : (0:ℚ) < a - b
  · simp [h, max_eq_right (le_of_lt h)]
  · simp [h, max_eq_left (le_of_not_lt h)]

/-- When both sessions are found, processing a hit stores the
floor-clamped health for the target. -/
lemma handlePlayerHit_found (ps : Store) (shooterId : Nat) (m : HitMsg)
    (target source : Session)
    (ht : lookupP ps m.targetId = some target)
    (hs : lookupP ps shooterId = some source) :
    lookupP (handlePlayerHit ps shooterId m).1 m.targetId =
      some { target with state := { target.state with
        health := jsMax (.fin 0) (jsSub target.state.health m.damage) } } := by
  unfold handlePlayerHit
  rw [ht, hs]
  exact lookupP_setP ps m.targetId _ target ht

/-- When either session is missing, a hit claim changes nothing and sends
nothing. -/
lemma handlePlayerHit_missing (ps : Store) (shooterId : Nat) (m : HitMsg)
    (h : lookupP ps m.targetId = none ∨ lookupP ps shooterId = none) :
    handlePlayerHit ps shooterId m = (ps, []) := by
  unfold handlePlayerHit
  rcases h with h | h
  · rw [h]
  · rw [h]
    rcases lookupP ps m.targetId with _ | t <;> rfl

/-- The respawn callback on a present, open session: the full output. -/
lemma respawnCallback_open (ps : Store) (defeatedId : Nat) (r1 r2 : ℚ)
    (sess : Session) (hl : lookupP ps defeatedId = some sess)
    (hw : sess.wsOpen = true) :
    respawnCallback ps defeatedId r1 r2 =
      (setP ps defeatedId { sess with state := { sess.state with
          position := spawnPosition r1 r2
          health := sess.state.maxHealth
          animationState := .fin 0 } },
       [ .sendTo defeatedId (.respawn { sess.state with
           position := spawnPosition r1 r2
           health := sess.state.maxHealth
           animationState := .fin 0 }),
         .broadcastExcept (some defeatedId) (.playerRespawned { sess.state with
           position := spawnPosition r1 r2
           health := sess.state.maxHealth
           animationState := .fin 0 }) ]) := by
  unfold respawnCallback
  rw [hl]
  simp [hw]

/-- C2: a hit claim against an existing target with finite health H and
finite claimed damage D stores health max(0, H − D) for the target, which
is never negative; and when either the shooter's or the target's session
is missing, the store is unchanged and no effects are produced. -/
theorem hit_resolution (ps : Store) (shooterId : Nat) (m : HitMsg)
    (target source : Session) (hq dq : ℚ) :
    (lookupP ps m.targetId = some target → lookupP ps shooterId = some source →
      target.state.health = .fin hq → m.damage = .fin dq →
      lookupP (handlePlayerHit ps shooterId m).1 m.targetId =
        some { target with state := { target.state with
          health := .fin (max 0 (hq - dq)) } } ∧
      (0:ℚ) ≤ max 0 (hq - dq)) ∧
    (lookupP ps m.targetId = none ∨ lookupP ps shooterId = none →
      handlePlayerHit ps shooterId m = (ps, [])) := by
  constructor
  · intro ht hs hh hd
    have hfound := handlePlayerHit_found ps shooterId m target source ht hs
    rw [hh, hd, jsMax_fin0_sub] at hfound
    exact ⟨hfound, le_max_left 0 (hq - dq)⟩
  · exact handlePlayerHit_missing ps shooterId m

/-- Witness for C2: shooter 1 hits target 2 for 30 damage at health 100,
leaving health max(0, 100 − 30); on an empty store the claim is dropped. -/
theorem hit_resolution_witness :
    lookupP (handlePlayerHit [(1, ⟨true, initialState 1 0⟩), (2, ⟨true, initialState 2 0⟩)] 1
        ⟨2, .fin 30, 0⟩).1 2 =
      some ⟨true, { initialState 2 0 with health := .fin (max 0 (100 - 30)) }⟩ ∧
    handlePlayerHit [] 1 ⟨2, .fin 30, 0⟩ = ([], []) :=
  ⟨((hit_resolution [(1, ⟨true, initialState 1 0⟩), (2, ⟨true, initialState 2 0⟩)] 1
      ⟨2, .fin 30, 0⟩ ⟨true, initialState 2 0⟩ ⟨true, initialState 1 0⟩ 100 30).1
      rfl rfl rfl rfl).1,
   (hit_resolution [] 1 ⟨2, .fin 30, 0⟩ ⟨true, initialState 2 0⟩ ⟨true, initialState 1 0⟩
      100 30).2 (Or.inl rfl)⟩

/-- C4: a defeat broadcast schedules exactly one respawn timer, with the
fixed 3000 ms delay; when the timer fires with the session gone (or its
socket no longer open) nothing is sent and nothing changes; when it fires
with the session present and open, the session gets a fresh randomized
spawn position, health reset to maxHealth and idle animation, a respawn
message to the respawned client, and a playerRespawned broadcast excluding
that client. -/
theorem defeat_respawn (defeatedId killerId : Nat) (ps : Store) (r1 r2 : ℚ) :
    ((handlePlayerDefeat defeatedId killerId).filter isScheduleEffect =
      [.schedule 3000 defeatedId]) ∧
    (lookupP ps defeatedId = none → respawnCallback ps defeatedId r1 r2 = (ps, [])) ∧
    (∀ sess, lookupP ps defeatedId = some sess → sess.wsOpen = false →
      respawnCallback ps defeatedId r1 r2 = (ps, [])) ∧
    (∀ sess, lookupP ps defeatedId = some sess → sess.wsOpen = true →
      respawnCallback ps defeatedId r1 r2 =
        (setP ps defeatedId { sess with state := { sess.state with
            position := spawnPosition r1 r2
            health := sess.state.maxHealth
            animationState := .fin 0 } },
         [ .sendTo defeatedId (.respawn { sess.state with
             position := spawnPosition r1 r2
             health := sess.state.maxHealth
             animationState := .fin 0 }),
           .broadcastExcept (some defeatedId) (.playerRespawned { sess.state with
             position := spawnPosition r1 r2
             health := sess.state.maxHealth
             animationState := .fin 0 }) ])) := by
  refine ⟨rfl, ?_, ?_, ?_⟩
  · intro h
    unfold respawnCallback
    rw [h]
  · intro sess hl hw
    unfold respawnCallback
    rw [hl]
    simp [hw]
  · intro sess hl hw
    exact respawnCallback_open ps defeatedId r1 r2 sess hl hw

/-- Witness for C4: the respawn timer firing on a one-session store with
an open socket performs the full respawn, and firing on an empty store
does nothing. -/
theorem defeat_respawn_witness :
    respawnCallback [(1, ⟨true, initialState 1 0⟩)] 1 1 0 =
      (setP [(1, ⟨true, initialState 1 0⟩)] 1 { (⟨true, initialState 1 0⟩ : Session) with
          state := { initialState 1 0 with
            position := spawnPosition 1 0
            health := (initialState 1 0).maxHealth
            animationState := .fin 0 } },
       [ .sendTo 1 (.respawn { initialState 1 0 with
           position := spawnPosition 1 0
           health := (initialState 1 0).maxHealth
           animationState := .fin 0 }),
         .broadcastExcept (some 1) (.playerRespawned { initialState 1 0 with
           position := spawnPosition 1 0
           health := (initialState 1 0).maxHealth
           animationState := .fin 0 }) ]) ∧
    respawnCallback [] 1 1 0 = ([], []) :=
  ⟨(defeat_respawn 1 2 [(1, ⟨true, initialState 1 0⟩)] 1 0).2.2.2
      ⟨true, initialState 1 0⟩ rfl rfl,
   (defeat_respawn 1 2 [] 1 0).2.1 rfl⟩

/-- C5 counterexample: a playerUpdate reporting health 150 on a session
with maxHealth 100 passes validation and is stored, violating
health ≤ maxHealth. -/
theorem health_above_max_accepted :
    isValidState ⟨none, none, none, some (.fin 150)⟩ = true ∧
    lookupP (handlePlayerUpdate [(1, ⟨true, initialState 1 0⟩)] 1
        ⟨none, none, none, some (.fin 150)⟩) 1 =
      some ⟨true, { initialState 1 0 with health := .fin 150 }⟩ ∧
    jsLe (JSNum.fin 150) (initialState 1 0).maxHealth = false :=
  ⟨rfl, rfl, rfl⟩

/-- C5 (amended): hit resolution keeps 0 ≤ health ≤ maxHealth whenever it
held before and the claimed damage is non-negative, and respawn resets
health to exactly maxHealth; the playerUpdate path does not maintain the
upper bound (a validated update may store health above maxHealth). -/
theorem health_invariant_combat (ps : Store) (shooterId defeatedId : Nat) (m : HitMsg)
    (target source : Session) (hq dq mq mq2 : ℚ) (r1 r2 : ℚ) :
    (lookupP ps m.targetId = some target → lookupP ps shooterId = some source →
      target.state.health = .fin hq → target.state.maxHealth = .fin mq →
      m.damage = .fin dq → 0 ≤ hq → hq ≤ mq → 0 ≤ dq →
      ∃ t', lookupP (handlePlayerHit ps shooterId m).1 m.targetId = some t' ∧
        t'.state.health = .fin (max 0 (hq - dq)) ∧
        t'.state.maxHealth = .fin mq ∧
        0 ≤ max 0 (hq - dq) ∧ max 0 (hq - dq) ≤ mq) ∧
    (∀ sess, lookupP ps defeatedId = some sess → sess.wsOpen = true →
      sess.state.maxHealth = .fin mq2 → 0 ≤ mq2 →
      ∃ s', lookupP (respawnCallback ps defeatedId r1 r2).1 defeatedId = some s' ∧
        s'.state.health = .fin mq2 ∧ s'.state.maxHealth = .fin mq2 ∧
        0 ≤ mq2 ∧ mq2 ≤ mq2) := by
  constructor
  · intro ht hs hh hm hd h0 hhm h0d
    have hfound := handlePlayerHit_found ps shooterId m target source ht hs
    rw [hh, hd, jsMax_fin0_sub] at hfound
    refine ⟨_, hfound, rfl, hm, le_max_left 0 (hq - dq), ?_⟩
    apply max_le (by linarith) (by linarith)
  · intro sess hl hw hm h0
    have hop := respawnCallback_open ps defeatedId r1 r2 sess hl hw
    rw [hop]
    have hlk := lookupP_setP ps defeatedId
      { sess with state := { sess.state with
          position := spawnPosition r1 r2
          health := sess.state.maxHealth
          animationState := .fin 0 } } sess hl
    exact ⟨_, hlk, by simp [hm], by simp [hm], h0, le_refl mq2⟩

/-- Witness for C5 (amended): the concrete hit from the C2 scenario keeps
0 ≤ health ≤ maxHealth, and a concrete respawn restores health to
maxHealth. -/
theorem health_invariant_combat_witness :
    (∃ t', lookupP (handlePlayerHit
        [(1, ⟨true, initialState 1 0⟩), (2, ⟨true, initialState 2 0⟩)] 1
        ⟨2, .fin 30, 0⟩).1 2 = some t' ∧
      t'.state.health = .fin (max 0 (100 - 30)) ∧
      t'.state.maxHealth = .fin 100 ∧
      0 ≤ max 0 ((100:ℚ) - 30) ∧ max 0 ((100:ℚ) - 30) ≤ 100) ∧
    (∃ s', lookupP (respawnCallback [(1, ⟨true, initialState 1 0⟩)] 1 1 0).1 1 = some s' ∧
      s'.state.health = .fin 100 ∧ s'.state.maxHealth = .fin 100 ∧
      (0:ℚ) ≤ 100 ∧ (100:ℚ) ≤ 100) :=
  ⟨(health_invariant_combat
      [(1, ⟨true, initialState 1 0⟩), (2, ⟨true, initialState 2 0⟩)] 1 1
      ⟨2, .fin 30, 0⟩ ⟨true, initialState 2 0⟩ ⟨true, initialState 1 0⟩
      100 30 100 100 1 0).1 rfl rfl rfl rfl rfl (by norm_num) (by norm_num) (by norm_num),
   (health_invariant_combat [(1, ⟨true, initialState 1 0⟩)] 1 1
      ⟨2, .fin 30, 0⟩ ⟨true, initialState 2 0⟩ ⟨true, initialState 1 0⟩
      100 30 100 100 1 0).2 ⟨true, initialState 1 0⟩ rfl rfl rfl (by norm_num)⟩

/-! ## Projectile removal claims -/

/-- With distinct entity ids none of which are already queued, the
removal-collection fold appends exactly the ids of entities that expired
or carry the deletion flag, in query order. -/
lemma collectRemovals_go (nowT : ℚ) :
    ∀ (es : List (Nat × ProjInfo)) (acc : List Nat),
      (∀ e ∈ es, e.1 ∉ acc) → (es.map Prod.fst).Nodup →
      es.foldl (removalFold nowT) acc =
        acc ++ (es.filter (fun e => ttlExpired nowT e.2 || e.2.marked)).map Prod.fst := by
  intro es
  induction es with
  | nil =>
    intro acc _ _
    simp
  | cons e rest ih =>
    intro acc hnotin hnd
    simp only [List.map_cons, List.nodup_cons] at hnd
    have hnd' : (rest.map Prod.fst).Nodup := hnd.2
    have hefst : e.1 ∉ rest.map Prod.fst := hnd.1
    have hrest : ∀ e2 ∈ rest, e2.1 ∉ acc ++ [e.1] := by
      intro e2 he2
      simp only [List.mem_append, List.mem_singleton]
      rintro (hin | hfst)
      · exact hnotin e2 (List.mem_cons_of_mem e he2) hin
      · exact hefst (hfst ▸ List.mem_map_of_mem Prod.fst he2)
    have hrest' : ∀ e2 ∈ rest, e2.1 ∉ acc :=
      fun e2 he2 => hnotin e2 (List.mem_cons_of_mem e he2)
    simp only [List.foldl_cons]
    by_cases hexp : ttlExpired nowT e.2 = true
    · rw [show removalFold nowT acc e = acc ++ [e.1] by
        simp only [removalFold]; rw [if_pos hexp]]
      rw [ih (acc ++ [e.1]) hrest hnd']
      simp [hexp, List.filter_cons]
    · by_cases hm : e.2.marked = true
      · rw [show removalFold nowT acc e = acc ++ [e.1] by
          simp only [removalFold]
          rw [if_neg (by simp [hexp]),
            if_pos (by simp [hm]; exact hnotin e (List.mem_cons_self e rest))]]
        rw [ih (acc ++ [e.1]) hrest hnd']
        simp [hexp, hm, List.filter_cons]
      · rw [show removalFold nowT acc e = acc by
          simp only [removalFold]
          rw [if_neg (by simp [hexp]), if_neg (by simp [hm])]]
        rw [ih acc hrest' hnd']
        simp [hexp, hm, List.filter_cons]

/-- C9: under the projectile query's distinct entity ids, the removal
list collected in one pass is exactly the ids whose TTL expired or whose
collision deletion flag is set, it contains no duplicate ids, and the
TTL-expiry path and the collision-flag path never both select the same
entity id (an expired entity is claimed by the TTL path alone, via the
`continue`). -/
theorem projectile_single_removal (nowT : ℚ) (es : List (Nat × ProjInfo))
    (hnd : (es.map Prod.fst).Nodup) :
    collectRemovals nowT es =
      (es.filter (fun e => ttlExpired nowT e.2 || e.2.marked)).map Prod.fst ∧
    (collectRemovals nowT es).Nodup ∧
    List.Disjoint
      ((es.filter (fun e => ttlExpired nowT e.2)).map Prod.fst)
      ((es.filter (fun e => !ttlExpired nowT e.2 && e.2.marked)).map Prod.fst) := by
  have hgo := collectRemovals_go nowT es [] (by simp) hnd
  have heq : collectRemovals nowT es =
      (es.filter (fun e => ttlExpired nowT e.2 || e.2.marked)).map Prod.fst := by
    unfold collectRemovals
    simpa using hgo
  refine ⟨heq, ?_, ?_⟩
  · rw [heq]
    exact List.Nodup.sublist ((List.filter_sublist es).map Prod.fst) hnd
  · intro a ha hb
    obtain ⟨e1, he1, hfe1⟩ := List.mem_map.mp ha
    obtain ⟨e2, he2, hfe2⟩ := List.mem_map.mp hb
    have he1m := List.mem_filter.mp he1
    have he2m := List.mem_filter.mp he2
    have hee : e1 = e2 :=
      List.inj_on_of_nodup_map hnd he1m.1 he2m.1 (hfe1.trans hfe2.symm)
    rw [hee] at he1m
    have h1 := he1m.2
    have h2 := he2m.2
    simp only [Bool.and_eq_true, Bool.not_eq_true'] at h2
    rw [h2.1] at h1
    exact Bool.false_ne_true h1

/-- Witness for C9: a pass over one expired-and-flagged projectile and one
merely flagged projectile removes each exactly once, with the expired one
claimed by the TTL path alone. -/
theorem projectile_single_removal_witness :
    collectRemovals 10 [(1, ⟨0, 5, true⟩), (2, ⟨0, 100, true⟩)] =
      (([(1, ⟨0, 5, true⟩), (2, ⟨0, 100, true⟩)] :
          List (Nat × ProjInfo)).filter
        (fun e => ttlExpired 10 e.2 || e.2.marked)).map Prod.fst ∧
    (collectRemovals 10 [(1, ⟨0, 5, true⟩), (2, ⟨0, 100, true⟩)]).Nodup ∧
    List.Disjoint
      ((([(1, ⟨0, 5, true⟩), (2, ⟨0, 100, true⟩)] :
          List (Nat × ProjInfo)).filter (fun e => ttlExpired 10 e.2)).map Prod.fst)
      ((([(1, ⟨0, 5, true⟩), (2, ⟨0, 100, true⟩)] :
          List (Nat × ProjInfo)).filter
        (fun e => !ttlExpired 10 e.2 && e.2.marked)).map Prod.fst) :=
  projectile_single_removal 10 [(1, ⟨0, 5, true⟩), (2, ⟨0, 100, true⟩)] (by simp)

end Westwelt
